import Mathlib

/-!
Verification of the chat-to-command pipeline of the `drvyn` backend
(`app.py`, route `/ai`).

Strings are modelled as `List Char`.  The pieces embedded here, each from the
corresponding place in `app.py`:

* `json_loads` — the standard JSON decoder (`json.loads`) used at line 453,
  restricted to the textual JSON grammar (numbers are kept as their lexemes,
  objects collapse duplicate keys keeping the first position and the last
  value, exactly as a Python `dict` built in document order does).
* `extract_array` — the regex search `re.search(r'\[.*\]', s, re.DOTALL)`
  at line 450: the match, when it exists, runs from the leftmost `[` to the
  rightmost `]` (leftmost match start, greedy `.*` spanning newlines).
* `parsed_commands_of` — lines 446–462: decode the extracted substring,
  falling back to a single MESSAGE command wrapping the raw text.
* `fix_sep`, `fix_dates`, `ai_parse_result` — lines 464–473: the
  `replace(' ', 'T').replace('TT', 'T')` date repair applied to string-valued
  `start`/`end` fields, and the surrounding `try/except` boundary that turns
  any exception (e.g. `command.get` on a non-dict element) into a generic
  server error.
* `provider_step` — lines 382–434: provider dispatch, missing/placeholder
  credential checks, and the per-provider `try/except` that converts any
  network failure into a fixed error string.
* `build_messages`, `last_n` — lines 352–379: prompt assembly from the last
  five conversation turns, oldest first, after the system instruction and the
  synthetic context message.
* `ai_run` — the `/ai` handler: input validation, the append of the user turn
  before the provider call and of the assistant turn after it, and the parse
  stage.  Network effects are represented by an oracle argument
  (`Except` = the call raised / returned text) plus an event trace recording
  the order of persistence and network operations.
-/

/-- JSON values as decoded by `json.loads`.  Numbers keep their source lexeme
(no floating point is modelled); objects are key/value lists with unique keys,
in Python `dict` insertion order. -/
inductive JVal where
  | jnull : JVal
  | jbool : Bool → JVal
  | jnum : List Char → JVal
  | jstr : List Char → JVal
  | jarr : List JVal → JVal
  | jobj : List (List Char × JVal) → JVal

/-- JSON insignificant whitespace (RFC 8259): space, tab, line feed, carriage
return. -/
def is_json_ws (c : Char) : Bool :=
  c = ' ' || c = '\t' || c = '\n' || c = '\r'

/-- Drop leading JSON whitespace. -/
def skip_ws (l : List Char) : List Char := l.dropWhile is_json_ws

/-- ASCII digit test. -/
def is_digit (c : Char) : Bool := decide ('0' ≤ c) && decide (c ≤ '9')

/-- Value of one hexadecimal digit. -/
def hex_val (c : Char) : Option Nat :=
  if decide ('0' ≤ c) && decide (c ≤ '9') then some (c.toNat - '0'.toNat)
  else if decide ('a' ≤ c) && decide (c ≤ 'f') then some (c.toNat - 'a'.toNat + 10)
  else if decide ('A' ≤ c) && decide (c ≤ 'F') then some (c.toNat - 'A'.toNat + 10)
  else none

/-- Body of a JSON string after the opening quote: returns the decoded
characters and the input remaining after the closing quote. -/
def parse_jstring_body : List Char → Option (List Char × List Char)
  | [] => none
  | '"' :: rest => some ([], rest)
  | '\\' :: rest =>
    match rest with
    | '"' :: r => (parse_jstring_body r).map (fun p => ('"' :: p.1, p.2))
    | '\\' :: r => (parse_jstring_body r).map (fun p => ('\\' :: p.1, p.2))
    | '/' :: r => (parse_jstring_body r).map (fun p => ('/' :: p.1, p.2))
    | 'b' :: r => (parse_jstring_body r).map (fun p => ('\x08' :: p.1, p.2))
    | 'f' :: r => (parse_jstring_body r).map (fun p => ('\x0c' :: p.1, p.2))
    | 'n' :: r => (parse_jstring_body r).map (fun p => ('\n' :: p.1, p.2))
    | 'r' :: r => (parse_jstring_body r).map (fun p => ('\r' :: p.1, p.2))
    | 't' :: r => (parse_jstring_body r).map (fun p => ('\t' :: p.1, p.2))
    | 'u' :: h1 :: h2 :: h3 :: h4 :: r =>
      match hex_val h1, hex_val h2, hex_val h3, hex_val h4 with
      | some a, some b, some c, some d =>
        (parse_jstring_body r).map
          (fun p => (Char.ofNat (((a * 16 + b) * 16 + c) * 16 + d) :: p.1, p.2))
      | _, _, _, _ => none
    | _ => none
  | c :: rest =>
    if c.toNat < 32 then none
    else (parse_jstring_body rest).map (fun p => (c :: p.1, p.2))

/-- Integer part of a JSON number (no leading zeros except a lone `0`). -/
def parse_int_part : List Char → Option (List Char × List Char)
  | [] => none
  | c :: rest =>
    if c = '0' then some ([c], rest)
    else if is_digit c then some (c :: rest.takeWhile is_digit, rest.dropWhile is_digit)
    else none

/-- Optional fraction part of a JSON number. -/
def parse_frac_part (l : List Char) : Option (List Char × List Char) :=
  match l with
  | '.' :: rest =>
    let ds := rest.takeWhile is_digit
    if ds = [] then none else some ('.' :: ds, rest.dropWhile is_digit)
  | _ => some ([], l)

/-- Optional exponent part of a JSON number. -/
def parse_exp_part (l : List Char) : Option (List Char × List Char) :=
  match l with
  | [] => some ([], l)
  | c :: rest =>
    if c = 'e' ∨ c = 'E' then
      match rest with
      | [] => none
      | s :: rest2 =>
        if s = '+' ∨ s = '-' then
          let ds := rest2.takeWhile is_digit
          if ds = [] then none else some (c :: s :: ds, rest2.dropWhile is_digit)
        else
          let ds := rest.takeWhile is_digit
          if ds = [] then none else some (c :: ds, rest.dropWhile is_digit)
    else some ([], l)

/-- A JSON number starting at the head of the input; returns its lexeme. -/
def parse_jnumber (l : List Char) : Option (List Char × List Char) :=
  let p := match l with
    | '-' :: r => (['-'], r)
    | _ => (([] : List Char), l)
  match parse_int_part p.2 with
  | none => none
  | some (ip, l2) =>
    match parse_frac_part l2 with
    | none => none
    | some (fp, l3) =>
      match parse_exp_part l3 with
      | none => none
      | some (ep, l4) => some (p.1 ++ ip ++ fp ++ ep, l4)

/-- Insert a key into an object under Python `dict` semantics: an existing key
keeps its position and takes the new value, a new key goes at the end. -/
def insert_field : List (List Char × JVal) → List Char → JVal → List (List Char × JVal)
  | [], k, v => [(k, v)]
  | (k0, v0) :: rest, k, v =>
    if k0 = k then (k0, v) :: rest else (k0, v0) :: insert_field rest k v

/-- Fold parsed members into a Python `dict`: duplicate keys keep the first
position and the last value. -/
def dict_of_pairs (ps : List (List Char × JVal)) : List (List Char × JVal) :=
  ps.foldl (fun acc p => insert_field acc p.1 p.2) []

mutual

/-- One JSON value starting at the head of the input (whitespace already
skipped); `fuel` bounds the recursion and is chosen large enough by
`json_loads`. -/
def parse_value : Nat → List Char → Option (JVal × List Char)
  | 0, _ => none
  | _ + 1, 'n' :: 'u' :: 'l' :: 'l' :: r => some (JVal.jnull, r)
  | _ + 1, 't' :: 'r' :: 'u' :: 'e' :: r => some (JVal.jbool true, r)
  | _ + 1, 'f' :: 'a' :: 'l' :: 's' :: 'e' :: r => some (JVal.jbool false, r)
  | _ + 1, 'N' :: 'a' :: 'N' :: r => some (JVal.jnum ("NaN".data), r)
  | _ + 1, 'I' :: 'n' :: 'f' :: 'i' :: 'n' :: 'i' :: 't' :: 'y' :: r =>
    some (JVal.jnum ("Infinity".data), r)
  | _ + 1, '-' :: 'I' :: 'n' :: 'f' :: 'i' :: 'n' :: 'i' :: 't' :: 'y' :: r =>
    some (JVal.jnum ("-Infinity".data), r)
  | _ + 1, '"' :: r => (parse_jstring_body r).map (fun p => (JVal.jstr p.1, p.2))
  | fuel + 1, '[' :: r =>
    match skip_ws r with
    | ']' :: r2 => some (JVal.jarr [], r2)
    | r1 =>
      match parse_elems fuel r1 with
      | some (xs, r2) => some (JVal.jarr xs, r2)
      | none => none
  | fuel + 1, '{' :: r =>
    match skip_ws r with
    | '}' :: r2 => some (JVal.jobj [], r2)
    | r1 =>
      match parse_members fuel r1 with
      | some (ps, r2) => some (JVal.jobj (dict_of_pairs ps), r2)
      | none => none
  | _ + 1, c :: r =>
    if c = '-' ∨ is_digit c = true then
      (parse_jnumber (c :: r)).map (fun p => (JVal.jnum p.1, p.2))
    else none
  | _ + 1, [] => none

/-- Comma-separated JSON array elements up to the closing bracket. -/
def parse_elems : Nat → List Char → Option (List JVal × List Char)
  | 0, _ => none
  | fuel + 1, l =>
    match parse_value fuel l with
    | none => none
    | some (v, r) =>
      match skip_ws r with
      | ',' :: r2 =>
        match parse_elems fuel (skip_ws r2) with
        | some (vs, r3) => some (v :: vs, r3)
        | none => none
      | ']' :: r2 => some ([v], r2)
      | _ => none

/-- Comma-separated JSON object members up to the closing brace. -/
def parse_members : Nat → List Char → Option (List (List Char × JVal) × List Char)
  | 0, _ => none
  | fuel + 1, l =>
    match l with
    | '"' :: r =>
      match parse_jstring_body r with
      | none => none
      | some (k, r1) =>
        match skip_ws r1 with
        | ':' :: r2 =>
          match parse_value fuel (skip_ws r2) with
          | none => none
          | some (v, r3) =>
            match skip_ws r3 with
            | ',' :: r4 =>
              match parse_members fuel (skip_ws r4) with
              | some (ps, r5) => some ((k, v) :: ps, r5)
              | none => none
            | '}' :: r4 => some ([(k, v)], r4)
            | _ => none
        | _ => none
    | _ => none

end

/-- `json.loads`: decode a complete JSON document, rejecting trailing
garbage.  The fuel `2 * length + 4` exceeds the number of recursive parsing
steps possible on the input. -/
def json_loads (l : List Char) : Option JVal :=
  match parse_value (2 * l.length + 4) (skip_ws l) with
  | some (v, r) => if skip_ws r = [] then some v else none
  | none => none

/-- Index of the leftmost `'['` in the input, if any. -/
def idx_open : List Char → Option Nat
  | [] => none
  | c :: rest => if c = '[' then some 0 else (idx_open rest).map (· + 1)

/-- Index of the rightmost `']'` in the input, if any. -/
def idx_close_last : List Char → Option Nat
  | [] => none
  | c :: rest =>
    match idx_close_last rest with
    | some k => some (k + 1)
    | none => if c = ']' then some 0 else none

/-- `re.search(r'\[.*\]', s, re.DOTALL)`: the leftmost-starting, greedy match
runs from the first `'['` to the last `']'`; it exists exactly when the first
`'['` lies strictly before the last `']'`. -/
def extract_array (l : List Char) : Option (List Char) :=
  match idx_open l, idx_close_last l with
  | some i, some j => if i < j then some ((l.take (j + 1)).drop i) else none
  | _, _ => none

/-- The fallback command list `[{"command": "MESSAGE", "text": assistant_msg}]`
wrapping the raw assistant text. -/
def message_fallback (raw : List Char) : List JVal :=
  [JVal.jobj [(("command").data, JVal.jstr (("MESSAGE").data)),
              (("text").data, JVal.jstr raw)]]

/-- Lines 446–462 of `app.py`: extract a bracketed substring, decode it, use
the decoded list as the commands; on a non-list decode, a decode error, or no
bracketed substring, fall back to one MESSAGE command wrapping the raw text. -/
def parsed_commands_of (assistant_msg : List Char) : List JVal :=
  match extract_array assistant_msg with
  | some json_str =>
    match json_loads json_str with
    | some (JVal.jarr xs) => xs
    | some _ => message_fallback assistant_msg
    | none => message_fallback assistant_msg
  | none => message_fallback assistant_msg

/-- Python `dict.get`: the value under a key, if present. -/
def dict_get : List (List Char × JVal) → List Char → Option JVal
  | [], _ => none
  | (k0, v) :: rest, k => if k0 = k then some v else dict_get rest k

/-- `s.replace(' ', 'T')`: substitute every space by the separator. -/
def subst_sep (l : List Char) : List Char :=
  l.map (fun c => if c = ' ' then 'T' else c)

/-- Python `s.replace('TT', 'T')`: non-overlapping left-to-right replacement
of doubled separators by single ones. -/
def replaceTT : List Char → List Char
  | [] => []
  | [c] => [c]
  | c1 :: c2 :: rest =>
    if c1 = 'T' ∧ c2 = 'T' then 'T' :: replaceTT rest
    else c1 :: replaceTT (c2 :: rest)

/-- Line 468 of `app.py`: `value.replace(' ', 'T').replace('TT', 'T')`. -/
def fix_sep (l : List Char) : List Char := replaceTT (subst_sep l)

/-- One `start`/`end` field repair: `command.get(key)` must be truthy and a
string (so: a nonempty string) for the field to be rewritten in place. -/
def fix_date_field (fs : List (List Char × JVal)) (key : List Char) :
    List (List Char × JVal) :=
  match dict_get fs key with
  | some (JVal.jstr s) => if s = [] then fs else insert_field fs key (JVal.jstr (fix_sep s))
  | _ => fs

/-- Lines 465–471 applied to one element of the command list: a dict gets its
`start` then its `end` field repaired; `command.get` on anything that is not a
dict raises `AttributeError` (modelled as `none`). -/
def fix_command (v : JVal) : Option JVal :=
  match v with
  | JVal.jobj fs =>
    some (JVal.jobj (fix_date_field (fix_date_field fs (("start").data)) (("end").data)))
  | _ => none

/-- The date-repair loop over the whole command list, stopping at the first
element that raises. -/
def fix_dates : List JVal → Option (List JVal)
  | [] => some []
  | c :: rest =>
    match fix_command c with
    | some c2 => (fix_dates rest).map (fun l2 => c2 :: l2)
    | none => none

/-- Outcome of the `/ai` route as seen by the HTTP caller. -/
inductive AiResult where
  | commands : List JVal → AiResult
  | clientError : AiResult
  | serverError : AiResult

/-- Lines 446–477: parse the assistant text into commands and run the date
repair; an exception in the repair loop reaches the boundary handler, which
answers with a generic server error. -/
def ai_parse_result (assistant_msg : List Char) : AiResult :=
  match fix_dates (parsed_commands_of assistant_msg) with
  | some cs => AiResult.commands cs
  | none => AiResult.serverError

/-- Python whitespace stripped by `str.strip()`. -/
def is_py_ws (c : Char) : Bool :=
  c = ' ' || c = '\t' || c = '\n' || c = '\r' || c = '\x0b' || c = '\x0c'

/-- Python `str.strip()`: remove leading and trailing whitespace. -/
def py_strip (l : List Char) : List Char :=
  ((l.dropWhile is_py_ws).reverse.dropWhile is_py_ws).reverse

/-- The provider configuration read from the environment: `AI_PROVIDER` and
the two credentials (`None` when the variable is unset). -/
structure Config where
  provider : List Char
  openai_key : Option (List Char)
  cohere_key : Option (List Char)

/-- `not api_key or api_key == placeholder`: the credential is unset, empty,
or the known placeholder value. -/
def key_missing (k : Option (List Char)) (placeholder : List Char) : Bool :=
  match k with
  | none => true
  | some s => decide (s = []) || decide (s = placeholder)

def openai_name : List Char := ("openai").data

def cohere_name : List Char := ("cohere").data

def openai_placeholder : List Char := ("your-openai-api-key-here").data

def cohere_placeholder : List Char := ("your-cohere-api-key-here").data

def openai_missing_msg : List Char :=
  ("I'm sorry, but the OpenAI API key is not configured. Please set up your OpenAI API key in the .env file.").data

def cohere_missing_msg : List Char :=
  ("I'm sorry, but the Cohere API key is not configured. Please set up your Cohere API key in the .env file.").data

def openai_err_lead : List Char :=
  ("I'm sorry, but there was an error with the OpenAI service: ").data

def cohere_err_lead : List Char :=
  ("I'm sorry, but there was an error with the Cohere service: ").data

def no_provider_msg : List Char :=
  ("I'm sorry, but no AI provider is configured. Please set up either OpenAI or Cohere API key in the .env file.").data

/-- Lines 382–434 of `app.py`: dispatch on `AI_PROVIDER`, skip the network
call when the credential is missing or a placeholder, and wrap any raised
network error into a fixed message.  The network interaction is an oracle
`call` (`Except.error e` = the call raised with detail `e`, `Except.ok t` =
the call returned text `t`, stripped like the source does).  The second
component records whether the network was reached. -/
def provider_step (cfg : Config) (call : Except (List Char) (List Char)) :
    List Char × Bool :=
  if cfg.provider = openai_name then
    if key_missing cfg.openai_key openai_placeholder then (openai_missing_msg, false)
    else
      match call with
      | Except.ok t => (py_strip t, true)
      | Except.error e => (openai_err_lead ++ e, true)
  else if cfg.provider = cohere_name then
    if key_missing cfg.cohere_key cohere_placeholder then (cohere_missing_msg, false)
    else
      match call with
      | Except.ok t => (py_strip t, true)
      | Except.error e => (cohere_err_lead ++ e, true)
  else (no_provider_msg, false)

/-- One conversation / prompt message: a role tag and its text content. -/
structure Turn where
  role : List Char
  content : List Char
deriving DecidableEq, Repr

def system_role : List Char := ("system").data

def user_role : List Char := ("user").data

def assistant_role : List Char := ("assistant").data

/-- The query `order_by(timestamp.desc()).limit(n)` followed by `reverse()`:
the last `n` elements of the chronological log, oldest first. -/
def last_n (n : Nat) (log : List Turn) : List Turn :=
  (log.reverse.take n).reverse

/-- Lines 352–379 of `app.py`: the prompt is the system instruction, then the
synthetic context message (sent with role `user`), then the last five
conversation turns in chronological order. -/
def build_messages (sys_text ctx_text : List Char) (log : List Turn) : List Turn :=
  Turn.mk system_role sys_text :: Turn.mk user_role ctx_text :: last_n 5 log

/-- Observable events of one `/ai` request, in execution order. -/
inductive AiEvent where
  | append_user : List Char → AiEvent
  | network_call : AiEvent
  | append_assistant : List Char → AiEvent
deriving DecidableEq, Repr

/-- What one `/ai` request leaves behind: the HTTP result, the conversation
log after the request, and the ordered trace of persistence / network
events. -/
structure AiOutcome where
  result : AiResult
  db : List Turn
  messages : List Turn
  trace : List AiEvent

/-- The `/ai` handler (lines 334–477 of `app.py`): reject missing/empty input
before any side effect; otherwise append the user turn, build the prompt,
run the provider step, append the assistant turn, and parse the assistant
text into commands.  `st` is the user's conversation log before the request;
`call` is the network oracle passed to `provider_step`. -/
def ai_run (input : Option (List Char)) (st : List Turn) (cfg : Config)
    (call : Except (List Char) (List Char)) (sys_text ctx_text : List Char) :
    AiOutcome :=
  match input with
  | none => AiOutcome.mk AiResult.clientError st [] []
  | some inp =>
    if inp = [] then AiOutcome.mk AiResult.clientError st [] []
    else
      let st1 := st ++ [Turn.mk user_role inp]
      let msgs := build_messages sys_text ctx_text st1
      let pr := provider_step cfg call
      let st2 := st1 ++ [Turn.mk assistant_role pr.1]
      AiOutcome.mk (ai_parse_result pr.1) st2 msgs
        ([AiEvent.append_user inp] ++
          (if pr.2 then [AiEvent.network_call] else []) ++
          [AiEvent.append_assistant pr.1])

/-! ### Helper lemmas about the bracket search -/

theorem idx_open_get : ∀ (l : List Char) (i : Nat), idx_open l = some i → l[i]? = some '['
  | [], i, h => by simp [idx_open] at h
  | c :: rest, i, h => by
    by_cases hc : c = '['
    · simp [idx_open, hc] at h
      subst h
      simp [hc]
    · simp [idx_open, hc] at h
      obtain ⟨k, hk, hki⟩ := h
      subst hki
      simpa using idx_open_get rest k hk

theorem idx_close_get : ∀ (l : List Char) (j : Nat), idx_close_last l = some j → l[j]? = some ']'
  | [], j, h => by simp [idx_close_last] at h
  | c :: rest, j, h => by
    cases h0 : idx_close_last rest with
    | some k =>
      rw [idx_close_last, h0] at h
      obtain rfl : k + 1 = j := by simpa using h
      simpa using idx_close_get rest k h0
    | none =>
      rw [idx_close_last, h0] at h
      by_cases hc : c = ']'
      · simp [hc] at h
        subst h
        simp [hc]
      · simp [hc] at h

/-- If no `'['` occurs before a `']'`, the regex search finds no match. -/
theorem extract_array_eq_none (l : List Char)
    (h : ∀ (i j : Nat), i < j → l[i]? = some '[' → l[j]? = some ']' → False) :
    extract_array l = none := by
  unfold extract_array
  cases ho : idx_open l with
  | none => simp
  | some i =>
    cases hc : idx_close_last l with
    | none => simp
    | some j =>
      by_cases hij : i < j
      · exact absurd (h i j hij (idx_open_get l i ho) (idx_close_get l j hc)) not_false
      · simp [hij]

/-! ### Helper lemmas about the date separator repair -/

/-- Two adjacent separators occur somewhere in the string. -/
def has_TT : List Char → Bool
  | c1 :: c2 :: rest => if c1 = 'T' ∧ c2 = 'T' then true else has_TT (c2 :: rest)
  | _ => false

/-- Three adjacent separators occur somewhere in the string. -/
def has_TTT : List Char → Bool
  | c1 :: c2 :: c3 :: rest =>
    if c1 = 'T' ∧ c2 = 'T' ∧ c3 = 'T' then true else has_TTT (c2 :: c3 :: rest)
  | _ => false

theorem has_TTT_tail (c : Char) (l : List Char) (h : has_TTT (c :: l) = false) :
    has_TTT l = false := by
  match l with
  | [] => rfl
  | [c2] => rfl
  | c2 :: c3 :: rest =>
    by_cases hc : c = 'T' ∧ c2 = 'T' ∧ c3 = 'T'
    · simp [has_TTT, hc] at h
    · rw [has_TTT, if_neg hc] at h
      exact h

theorem replaceTT_cons (c : Char) (l : List Char) :
    ∃ l2, replaceTT (c :: l) = c :: l2 := by
  match l with
  | [] => exact ⟨[], rfl⟩
  | c2 :: rest =>
    by_cases h : c = 'T' ∧ c2 = 'T'
    · obtain ⟨h1, h2⟩ := h
      subst h1; subst h2
      exact ⟨replaceTT rest, by simp [replaceTT]⟩
    · exact ⟨replaceTT (c2 :: rest), by rw [replaceTT, if_neg h]⟩

theorem replaceTT_no_TT : ∀ l, has_TTT l = false → has_TT (replaceTT l) = false
  | [], _ => by simp [replaceTT, has_TT]
  | [c], _ => by simp [replaceTT, has_TT]
  | c1 :: c2 :: rest, h => by
    by_cases h12 : c1 = 'T' ∧ c2 = 'T'
    · obtain ⟨hc1, hc2⟩ := h12
      subst hc1; subst hc2
      cases rest with
      | nil => simp [replaceTT, has_TT]
      | cons c3 r3 =>
        have hc3 : c3 ≠ 'T' := by
          intro hc; subst hc; simp [has_TTT] at h
        have hrest : has_TTT (c3 :: r3) = false :=
          has_TTT_tail _ _ (has_TTT_tail _ _ h)
        have ih := replaceTT_no_TT (c3 :: r3) hrest
        obtain ⟨l2, hl2⟩ := replaceTT_cons c3 r3
        have he : replaceTT ('T' :: 'T' :: c3 :: r3) = 'T' :: replaceTT (c3 :: r3) := by
          simp [replaceTT]
        rw [he, hl2]
        have hstep : has_TT ('T' :: c3 :: l2) = has_TT (c3 :: l2) := by
          simp [has_TT, hc3]
        rw [hstep, ← hl2]
        exact ih
    · have hrest : has_TTT (c2 :: rest) = false := has_TTT_tail _ _ h
      have ih := replaceTT_no_TT (c2 :: rest) hrest
      obtain ⟨l2, hl2⟩ := replaceTT_cons c2 rest
      have he : replaceTT (c1 :: c2 :: rest) = c1 :: replaceTT (c2 :: rest) := by
        rw [replaceTT, if_neg h12]
      rw [he, hl2]
      have hstep : has_TT (c1 :: c2 :: l2) = has_TT (c2 :: l2) := by
        simp [has_TT, h12]
      rw [hstep, ← hl2]
      exact ih

theorem replaceTT_eq_self : ∀ l, has_TT l = false → replaceTT l = l
  | [], _ => rfl
  | [_], _ => rfl
  | c1 :: c2 :: rest, h => by
    have h12 : ¬(c1 = 'T' ∧ c2 = 'T') := by
      intro hc; simp [has_TT, hc] at h
    have htail : has_TT (c2 :: rest) = false := by
      rw [has_TT, if_neg h12] at h
      exact h
    rw [replaceTT, if_neg h12, replaceTT_eq_self (c2 :: rest) htail]

theorem mem_replaceTT : ∀ (l : List Char) (c : Char), c ∈ replaceTT l → c ∈ l
  | [], c, h => h
  | [b], c, h => h
  | c1 :: c2 :: rest, c, h => by
    by_cases h12 : c1 = 'T' ∧ c2 = 'T'
    · obtain ⟨hc1, hc2⟩ := h12
      subst hc1; subst hc2
      rw [show replaceTT ('T' :: 'T' :: rest) = 'T' :: replaceTT rest from by simp [replaceTT]] at h
      rcases List.mem_cons.1 h with h' | h'
      · exact h' ▸ List.mem_cons_self _ _
      · exact List.mem_cons_of_mem _ (List.mem_cons_of_mem _ (mem_replaceTT rest c h'))
    · rw [show replaceTT (c1 :: c2 :: rest) = c1 :: replaceTT (c2 :: rest) from by
        rw [replaceTT, if_neg h12]] at h
      rcases List.mem_cons.1 h with h' | h'
      · exact h' ▸ List.mem_cons_self _ _
      · exact List.mem_cons_of_mem _ (mem_replaceTT (c2 :: rest) c h')

theorem subst_sep_no_space (l : List Char) : ' ' ∉ subst_sep l := by
  intro h
  rw [subst_sep, List.mem_map] at h
  obtain ⟨a, _, hfa⟩ := h
  by_cases ha : a = ' '
  · simp [ha] at hfa
  · rw [if_neg ha] at hfa
    exact ha hfa

theorem subst_sep_eq_self : ∀ l : List Char, ' ' ∉ l → subst_sep l = l
  | [], _ => rfl
  | c :: rest, h => by
    have hc : c ≠ ' ' := fun hc => h (hc ▸ List.mem_cons_self _ _)
    have hrest : ' ' ∉ rest := fun hr => h (List.mem_cons_of_mem _ hr)
    have hne : ¬(c = ' ') := hc
    simp only [subst_sep, List.map_cons]
    rw [if_neg hne]
    have := subst_sep_eq_self rest hrest
    rw [subst_sep] at this
    rw [this]

theorem fix_sep_no_space (s : List Char) : ' ' ∉ fix_sep s :=
  fun h => subst_sep_no_space s (mem_replaceTT _ ' ' h)

/-! ### Remaining helpers -/

/-- Whether a decoded JSON value is an object (a Python `dict`). -/
def is_jobj : JVal → Bool
  | JVal.jobj _ => true
  | _ => false

theorem fix_dates_none_of_non_obj :
    ∀ (xs : List JVal) (x : JVal), x ∈ xs → is_jobj x = false → fix_dates xs = none
  | [], x, hx, _ => absurd hx (List.not_mem_nil x)
  | y :: rest, x, hx, hobj => by
    rcases List.mem_cons.1 hx with rfl | hx'
    · have hfc : fix_command x = none := by
        cases x with
        | jobj fs => simp [is_jobj] at hobj
        | jnull => rfl
        | jbool b => rfl
        | jnum s => rfl
        | jstr s => rfl
        | jarr l => rfl
      simp [fix_dates, hfc]
    · cases hfc : fix_command y with
      | none => simp [fix_dates, hfc]
      | some c2 => simp [fix_dates, hfc, fix_dates_none_of_non_obj rest x hx' hobj]

/-! ### The claims -/

/-- C1 (corrected): the original claim — the parser always yields at least one
command, so the commands list is never empty — fails when the extracted
substring decodes to the empty JSON array.  Amended form: the parser's output
is empty exactly when the bracketed substring decodes to the empty array; in
every other case (including every structured-extraction failure, which falls
back to one MESSAGE command) it contains at least one command. -/
theorem parser_empty_iff_decoded_empty_array (s : List Char) :
    parsed_commands_of s = [] ↔
      ∃ t, extract_array s = some t ∧ json_loads t = some (JVal.jarr []) := by
  unfold parsed_commands_of
  cases he : extract_array s with
  | none => simp [message_fallback]
  | some t =>
    cases hj : json_loads t with
    | none => simp [message_fallback, hj]
    | some v =>
      cases v with
      | jnull => simp [message_fallback, hj]
      | jbool b => simp [message_fallback, hj]
      | jnum n => simp [message_fallback, hj]
      | jstr n => simp [message_fallback, hj]
      | jobj fs => simp [message_fallback, hj]
      | jarr xs => simp [message_fallback, hj]

/-- C1 counterexample: on the raw assistant text `"[]"` the parser yields the
empty command list and the endpoint returns an empty commands array. -/
theorem parser_empty_on_empty_array :
    parsed_commands_of (("[]").data) = [] ∧
    ai_parse_result (("[]").data) = AiResult.commands [] :=
  ⟨rfl, rfl⟩

/-- C2 (corrected, amended form): when the substring from the leftmost `[` to
the rightmost `]` (the match the code extracts) is a well-formed JSON array,
the parser's output equals the decoded array. -/
theorem parser_output_eq_decoded_array (s t : List Char) (xs : List JVal)
    (h1 : extract_array s = some t) (h2 : json_loads t = some (JVal.jarr xs)) :
    parsed_commands_of s = xs := by
  simp [parsed_commands_of, h1, h2]

/-- Witness for C2: a concrete raw text whose extracted substring is a
well-formed JSON array. -/
theorem parser_output_eq_decoded_array_witness :
    extract_array (("x [1] y").data) = some (("[1]").data) ∧
    json_loads (("[1]").data) = some (JVal.jarr [JVal.jnum (("1").data)]) ∧
    parsed_commands_of (("x [1] y").data) = [JVal.jnum (("1").data)] :=
  ⟨rfl, rfl, parser_output_eq_decoded_array _ _ _ rfl rfl⟩

/-- C2 counterexample: the raw text `"[a] [1]"` contains the well-formed JSON
array `"[1]"` as a substring, but the greedy leftmost-to-rightmost extraction
grabs `"[a] [1]"`, which fails to decode, so the parser falls back to a
MESSAGE command instead of the decoded array. -/
theorem parser_misses_contained_array :
    (("[a] ").data ++ ("[1]").data = ("[a] [1]").data) ∧
    json_loads (("[1]").data) = some (JVal.jarr [JVal.jnum (("1").data)]) ∧
    parsed_commands_of (("[a] [1]").data) ≠ [JVal.jnum (("1").data)] := by
  refine ⟨rfl, rfl, ?_⟩
  intro h
  rw [show parsed_commands_of (("[a] [1]").data) =
        message_fallback (("[a] [1]").data) from rfl] at h
  simp [message_fallback] at h

/-- C3 counterexample: the date normalization
`s.replace(' ', 'T').replace('TT', 'T')` is not idempotent: on `"TTT"` the
first pass collapses only the first doubled separator (Python replaces
non-overlapping occurrences), yielding `"TT"`, and a second pass yields
`"T"`. -/
theorem fix_sep_not_idempotent :
    fix_sep (fix_sep (("TTT").data)) ≠ fix_sep (("TTT").data) ∧
    fix_sep (("TTT").data) = ("TT").data ∧
    fix_sep (fix_sep (("TTT").data)) = ("T").data := by
  refine ⟨?_, rfl, rfl⟩
  decide

/-- C3 (corrected, amended form): the date normalization is idempotent on
every string whose space-to-separator substitution contains no run of three
or more consecutive separator characters `'T'`. -/
theorem fix_sep_idempotent_of_no_triple (s : List Char)
    (h : has_TTT (subst_sep s) = false) :
    fix_sep (fix_sep s) = fix_sep s := by
  have h1 : subst_sep (fix_sep s) = fix_sep s :=
    subst_sep_eq_self _ (fix_sep_no_space s)
  calc fix_sep (fix_sep s) = replaceTT (subst_sep (fix_sep s)) := rfl
    _ = replaceTT (fix_sep s) := by rw [h1]
    _ = fix_sep s := replaceTT_eq_self _ (replaceTT_no_TT _ h)

/-- Witness for C3: the spec's own example date string. -/
theorem fix_sep_idempotent_witness :
    has_TTT (subst_sep (("2025-07-30 10:00:00").data)) = false ∧
    fix_sep (fix_sep (("2025-07-30 10:00:00").data)) =
      fix_sep (("2025-07-30 10:00:00").data) :=
  ⟨by decide, fix_sep_idempotent_of_no_triple _ (by decide)⟩

/-- C4 (confirmed): when the raw assistant text has no `[` followed later by a
`]`, the parser's output is exactly one MESSAGE command whose text is the raw
input verbatim. -/
theorem parser_no_bracket_single_message (raw : List Char)
    (h : ∀ (i j : Nat), i < j → raw[i]? = some '[' → raw[j]? = some ']' → False) :
    parsed_commands_of raw =
      [JVal.jobj [(("command").data, JVal.jstr (("MESSAGE").data)),
                  (("text").data, JVal.jstr raw)]] := by
  have he := extract_array_eq_none raw h
  simp [parsed_commands_of, he, message_fallback]

/-- Witness for C4: plain prose with no brackets becomes one MESSAGE
command. -/
theorem parser_no_bracket_single_message_witness :
    parsed_commands_of (("Sure, I will do that!").data) =
      [JVal.jobj [(("command").data, JVal.jstr (("MESSAGE").data)),
                  (("text").data, JVal.jstr (("Sure, I will do that!").data))]] :=
  parser_no_bracket_single_message _ (fun i j _ hi _ =>
    absurd (List.getElem?_mem hi) (by decide))

set_option maxRecDepth 16384 in
/-- C5 (confirmed): when the active provider's credential is absent or the
known placeholder, the `/ai` pipeline performs no network call, the assistant
response is the fixed "not configured" message, and the endpoint surfaces it
as a single MESSAGE command. -/
theorem missing_key_skips_network (inp : List Char) (st : List Turn)
    (cfg : Config) (call : Except (List Char) (List Char))
    (sys_text ctx_text : List Char) (hinp : inp ≠ [])
    (h : (cfg.provider = openai_name ∧
            key_missing cfg.openai_key openai_placeholder = true) ∨
         (cfg.provider = cohere_name ∧
            key_missing cfg.cohere_key cohere_placeholder = true)) :
    AiEvent.network_call ∉ (ai_run (some inp) st cfg call sys_text ctx_text).trace ∧
    ((provider_step cfg call).1 = openai_missing_msg ∨
      (provider_step cfg call).1 = cohere_missing_msg) ∧
    (ai_run (some inp) st cfg call sys_text ctx_text).result =
      AiResult.commands (message_fallback (provider_step cfg call).1) := by
  have hps : provider_step cfg call = (openai_missing_msg, false) ∨
      provider_step cfg call = (cohere_missing_msg, false) := by
    rcases h with ⟨hp, hk⟩ | ⟨hp, hk⟩
    · left
      simp [provider_step, hp, hk]
    · right
      simp [provider_step, hp, hk, show cohere_name ≠ openai_name from by decide]
  have hoa : ai_parse_result openai_missing_msg =
      AiResult.commands (message_fallback openai_missing_msg) := by rfl
  have hco : ai_parse_result cohere_missing_msg =
      AiResult.commands (message_fallback cohere_missing_msg) := by rfl
  rcases hps with hps | hps <;>
    refine ⟨?_, ?_, ?_⟩ <;>
      simp [ai_run, hinp, hps, hoa, hco]

set_option maxRecDepth 16384 in
/-- Witness for C5: a configuration selecting cohere with no credential. -/
theorem missing_key_skips_network_witness :
    AiEvent.network_call ∉
      (ai_run (some (("hi").data)) [] (Config.mk (("cohere").data) none none)
        (Except.ok []) [] []).trace ∧
    ((provider_step (Config.mk (("cohere").data) none none) (Except.ok [])).1 =
        openai_missing_msg ∨
      (provider_step (Config.mk (("cohere").data) none none) (Except.ok [])).1 =
        cohere_missing_msg) ∧
    (ai_run (some (("hi").data)) [] (Config.mk (("cohere").data) none none)
        (Except.ok []) [] []).result =
      AiResult.commands
        (message_fallback
          ((provider_step (Config.mk (("cohere").data) none none) (Except.ok [])).1)) :=
  missing_key_skips_network (("hi").data) [] (Config.mk (("cohere").data) none none)
    (Except.ok []) [] [] (by decide) (Or.inr ⟨rfl, rfl⟩)

/-- C6 (confirmed): whenever a network call is actually made and raises, the
provider adapter's result is the fixed error message with the failure detail
appended; the adapter is a total function into plain strings, so no exception
crosses this layer. -/
theorem provider_error_wrapped (cfg : Config) (e : List Char)
    (h : (cfg.provider = openai_name ∧
            key_missing cfg.openai_key openai_placeholder = false) ∨
         (cfg.provider = cohere_name ∧
            key_missing cfg.cohere_key cohere_placeholder = false)) :
    (provider_step cfg (Except.error e)).2 = true ∧
    ((provider_step cfg (Except.error e)).1 = openai_err_lead ++ e ∨
      (provider_step cfg (Except.error e)).1 = cohere_err_lead ++ e) := by
  rcases h with ⟨hp, hk⟩ | ⟨hp, hk⟩
  · simp [provider_step, hp, hk]
  · simp [provider_step, hp, hk, show cohere_name ≠ openai_name from by decide]

/-- Witness for C6: an openai configuration with a real-looking key and a
raised network error. -/
theorem provider_error_wrapped_witness :
    (provider_step (Config.mk (("openai").data) (some (("sk-test").data)) none)
        (Except.error (("boom").data))).2 = true ∧
    ((provider_step (Config.mk (("openai").data) (some (("sk-test").data)) none)
        (Except.error (("boom").data))).1 = openai_err_lead ++ (("boom").data) ∨
      (provider_step (Config.mk (("openai").data) (some (("sk-test").data)) none)
        (Except.error (("boom").data))).1 = cohere_err_lead ++ (("boom").data)) :=
  provider_error_wrapped (Config.mk (("openai").data) (some (("sk-test").data)) none)
    (("boom").data) (Or.inl ⟨rfl, by decide⟩)

/-- C7 (confirmed): when the conversation log holds more than five turns, the
assembled prompt is the system instruction, then the synthetic context
message, then exactly the five most recent turns in chronological
(oldest-first) order. -/
theorem prompt_keeps_last_five (sys_text ctx_text : List Char)
    (log : List Turn) (h : 5 < log.length) :
    build_messages sys_text ctx_text log =
      Turn.mk system_role sys_text :: Turn.mk user_role ctx_text ::
        log.drop (log.length - 5) ∧
    (log.drop (log.length - 5)).length = 5 := by
  constructor
  · rw [build_messages, last_n, ← List.rtake_eq_reverse_take_reverse]
    rfl
  · rw [List.length_drop]
    omega

/-- Witness for C7: a six-turn log keeps only the last five turns. -/
theorem prompt_keeps_last_five_witness :
    build_messages [] []
        [Turn.mk user_role [], Turn.mk assistant_role [], Turn.mk user_role [],
         Turn.mk assistant_role [], Turn.mk user_role [], Turn.mk assistant_role []] =
      Turn.mk system_role [] :: Turn.mk user_role [] ::
        List.drop
          ((List.length
            [Turn.mk user_role [], Turn.mk assistant_role [], Turn.mk user_role [],
             Turn.mk assistant_role [], Turn.mk user_role [], Turn.mk assistant_role []]) - 5)
          [Turn.mk user_role [], Turn.mk assistant_role [], Turn.mk user_role [],
           Turn.mk assistant_role [], Turn.mk user_role [], Turn.mk assistant_role []] ∧
    (List.drop
        ((List.length
          [Turn.mk user_role [], Turn.mk assistant_role [], Turn.mk user_role [],
           Turn.mk assistant_role [], Turn.mk user_role [], Turn.mk assistant_role []]) - 5)
        [Turn.mk user_role [], Turn.mk assistant_role [], Turn.mk user_role [],
         Turn.mk assistant_role [], Turn.mk user_role [], Turn.mk assistant_role []]).length = 5 :=
  prompt_keeps_last_five [] []
    [Turn.mk user_role [], Turn.mk assistant_role [], Turn.mk user_role [],
     Turn.mk assistant_role [], Turn.mk user_role [], Turn.mk assistant_role []]
    (by decide)

/-- C8 (confirmed): a request with missing (`None`) or empty user input is
rejected as a client error before any side effect: the conversation log is
unchanged, no turn is appended, and no network call happens (the event trace
is empty). -/
theorem empty_input_rejected_without_side_effect (st : List Turn) (cfg : Config)
    (call : Except (List Char) (List Char)) (sys_text ctx_text : List Char) :
    ai_run none st cfg call sys_text ctx_text =
      AiOutcome.mk AiResult.clientError st [] [] ∧
    ai_run (some []) st cfg call sys_text ctx_text =
      AiOutcome.mk AiResult.clientError st [] [] :=
  ⟨rfl, rfl⟩

/-- C9 (confirmed): with non-empty input, the handler's log after the request
is the old log plus the user turn and then the assistant turn, and in the
event trace any network call is strictly after the user turn was appended and
strictly before the assistant turn was appended — the provider is never
reached without the user's message already recorded. -/
theorem user_turn_saved_before_provider_call (inp : List Char) (st : List Turn)
    (cfg : Config) (call : Except (List Char) (List Char))
    (sys_text ctx_text : List Char) (hinp : inp ≠ []) :
    (ai_run (some inp) st cfg call sys_text ctx_text).db =
      st ++ [Turn.mk user_role inp,
             Turn.mk assistant_role (provider_step cfg call).1] ∧
    ∀ pre suf, (ai_run (some inp) st cfg call sys_text ctx_text).trace =
        pre ++ AiEvent.network_call :: suf →
      AiEvent.append_user inp ∈ pre ∧
      AiEvent.append_assistant (provider_step cfg call).1 ∈ suf := by
  constructor
  · simp [ai_run, hinp]
  · intro pre suf htr
    simp only [ai_run, hinp, if_neg hinp] at htr
    by_cases hc : (provider_step cfg call).2
    · rw [if_pos hc] at htr
      simp only [List.singleton_append, List.cons_append, List.nil_append] at htr
      cases pre with
      | nil => simp at htr
      | cons x pre2 =>
        cases pre2 with
        | nil =>
          simp only [List.singleton_append, List.cons_append, List.nil_append,
            List.cons.injEq] at htr
          rcases htr with ⟨rfl, -, rfl⟩
          exact ⟨List.mem_cons_self _ _, List.mem_cons_self _ _⟩
        | cons y pre3 =>
          cases pre3 with
          | nil => simp at htr
          | cons z pre4 => simp at htr
    · rw [if_neg hc] at htr
      have hmem : AiEvent.network_call ∈ pre ++ AiEvent.network_call :: suf :=
        List.mem_append_right _ (List.mem_cons_self _ _)
      rw [← htr] at hmem
      simp at hmem

/-- Witness for C9: a concrete run whose trace contains a network call, with
the decomposition around that call. -/
theorem user_turn_saved_before_provider_call_witness :
    AiEvent.append_user (("hi").data) ∈ [AiEvent.append_user (("hi").data)] ∧
    AiEvent.append_assistant
        ((provider_step (Config.mk (("cohere").data) none (some (("k").data)))
          (Except.ok (("ok").data))).1) ∈
      [AiEvent.append_assistant
        ((provider_step (Config.mk (("cohere").data) none (some (("k").data)))
          (Except.ok (("ok").data))).1)] :=
  (user_turn_saved_before_provider_call (("hi").data) []
      (Config.mk (("cohere").data) none (some (("k").data)))
      (Except.ok (("ok").data)) [] [] (by decide)).2
    [AiEvent.append_user (("hi").data)]
    [AiEvent.append_assistant
      ((provider_step (Config.mk (("cohere").data) none (some (("k").data)))
        (Except.ok (("ok").data))).1)]
    rfl

/-- C10 (confirmed): when the decoded JSON array contains an element that is
not an object, the date-fix loop raises (`command.get` on a non-dict), the
boundary handler catches it, and the endpoint answers with a generic server
error instead of a commands list. -/
theorem non_object_command_yields_server_error (s t : List Char) (xs : List JVal)
    (h1 : extract_array s = some t) (h2 : json_loads t = some (JVal.jarr xs))
    (x : JVal) (hx : x ∈ xs) (hobj : is_jobj x = false) :
    ai_parse_result s = AiResult.serverError := by
  have hp : parsed_commands_of s = xs := by
    simp [parsed_commands_of, h1, h2]
  rw [ai_parse_result, hp, fix_dates_none_of_non_obj xs x hx hobj]

/-- Witness for C10: the well-formed JSON array `"[1]"` makes the endpoint
answer with a server error. -/
theorem non_object_command_yields_server_error_witness :
    extract_array (("[1]").data) = some (("[1]").data) ∧
    json_loads (("[1]").data) = some (JVal.jarr [JVal.jnum (("1").data)]) ∧
    ai_parse_result (("[1]").data) = AiResult.serverError :=
  ⟨rfl, rfl,
    non_object_command_yields_server_error _ _ _ rfl rfl
      (JVal.jnum (("1").data)) (List.mem_cons_self _ _) rfl⟩
